import Mathlib

/-!
# tcp-echo: a shallow embedding of `main.go`

The program is a line-oriented TCP echo server.  Go strings are embedded as
Lean `String`s, the process environment as a function from variable names to
optional values, and the connection handler as a function from what the
connection delivers (the lines its scanner yields, how reading ends, which
writes succeed) to the trace of operations the handler performs.
-/

namespace TcpEcho

/-! ## Configuration (`main.go` lines 13-46) -/

def envHost : String := "ECHO_SERVER_HOST"
def envPort : String := "ECHO_SERVER_PORT"
def envPrefix : String := "ECHO_SERVER_PREFIX"

/-- The `config` struct.  The field `prefix` of the source is spelled `prefix_`
because the source's spelling is a reserved word. -/
structure config where
  host : String
  port : String
  prefix_ : String
  deriving DecidableEq, Repr

/-- The process environment: a variable is unset (`none`) or set to a value. -/
abbrev Environ := String → Option String

/-- `os.Getenv`: the value of the variable, the empty string when it is unset. -/
def Getenv (env : Environ) (key : String) : String :=
  (env key).getD ""

/-- `getConfig` (lines 25-46). -/
def getConfig (env : Environ) : config :=
  let host := Getenv env envHost
  let host := if host == "" then "0.0.0.0" else host
  let port := Getenv env envPort
  let port := if port == "" then "9002" else port
  let pfx := Getenv env envPrefix
  let pfx := if pfx == "" then "ECHO: " else pfx
  { host := host, port := port, prefix_ := pfx }

/-! ## Library functions the program calls

`fmt`, `strings`, `time` and `unicode` are Go's standard library; the parts the
program uses are embedded here from their documented behaviour. -/

/-- The verb `%-Ns` of `fmt.Sprintf`: the string left-justified, padded with
blanks on the right up to `width` characters.  A longer string is not cut. -/
def padRight (width : Nat) (s : String) : String :=
  s ++ String.mk (List.replicate (width - s.length) ' ')

/-- The verb `%-Nd` of `fmt.Sprintf` on a non-negative integer. -/
def padRightNat (width : Nat) (n : Nat) : String :=
  padRight width (Nat.repr n)

/-- A decimal number padded with zeros on the left up to `width` digits. -/
def zeroPad (width : Nat) (n : Nat) : String :=
  String.mk (List.replicate (width - (Nat.repr n).length) '0') ++ Nat.repr n

/-- The fields of a `time.Time` that the layout of the program prints. -/
structure Time where
  year : Nat
  month : Nat
  day : Nat
  hour : Nat
  minute : Nat
  second : Nat
  deriving DecidableEq, Repr

/-- The call `t.Format("2006-01-02 15:04:05")`. -/
def Time.Format (t : Time) : String :=
  zeroPad 4 t.year ++ "-" ++ zeroPad 2 t.month ++ "-" ++ zeroPad 2 t.day ++ " " ++
    zeroPad 2 t.hour ++ ":" ++ zeroPad 2 t.minute ++ ":" ++ zeroPad 2 t.second

/-- The function `unicode.ToLower` on one rune: the ASCII letters `A`-`Z` are
moved to `a`-`z`, every other ASCII rune is kept, and a rune above ASCII is
looked up in the Unicode case tables.  The tables are not part of the
repository and are taken as the parameter `tbl`. -/
def unicodeToLower (tbl : Char → Char) (r : Char) : Char :=
  if r.toNat ≤ 127 then
    if 'A'.toNat ≤ r.toNat ∧ r.toNat ≤ 'Z'.toNat then Char.ofNat (r.toNat + 32) else r
  else tbl r

/-- The function `strings.ToLower`: every rune mapped by `unicode.ToLower`. -/
def ToLower (tbl : Char → Char) (s : String) : String :=
  String.mk (s.data.map (unicodeToLower tbl))

/-- Splitting a list of characters at every occurrence of `sep`; `cur` holds
the characters of the piece being read, in reverse. -/
def splitAux (sep : Char) : List Char → List Char → List String
  | [], cur => [String.mk cur.reverse]
  | c :: cs, cur =>
    if c = sep then String.mk cur.reverse :: splitAux sep cs []
    else splitAux sep cs (c :: cur)

/-- The call `strings.Split(s, sep)` for a separator of one character: all
the pieces of `s` between occurrences of `sep`, in order. -/
def Split (s : String) (sep : Char) : List String :=
  splitAux sep s.data []

/-! ## The server information block (`main.go` lines 48-90) -/

/-- What `*net.TCPAddr` carries for the program: the IP address in the textual
form `%s` prints, and the port number. -/
structure TCPAddr where
  IP : String
  Port : Nat
  deriving DecidableEq, Repr

/-- One entry of `net.InterfaceAddrs()`, as far as the program inspects it:
whether it is a `*net.IPNet`, whether its IP is a loopback address, whether
`To4()` is non-nil, and the text `IP.String()` gives. -/
structure IfAddr where
  isIPNet : Bool
  isLoopback : Bool
  isIPv4 : Bool
  text : String
  deriving DecidableEq, Repr

/-- The loop of lines 59-65 (and 163-169): the texts of the entries that are IP
networks, not loopback and IPv4, in the order of discovery. -/
def collectIPs : List IfAddr → List String
  | [] => []
  | addr :: rest =>
    if addr.isIPNet && !addr.isLoopback then
      if addr.isIPv4 then addr.text :: collectIPs rest else collectIPs rest
    else collectIPs rest

/-- What the operating system answers to the lookups of the program: the
hostname (or an error), the interface addresses (or an error), the clock. -/
structure Host where
  hostname : Except String String
  ifaddrs : Except String (List IfAddr)
  now : Time

def boxTop : String := "╔══════════════════════════════════════╗\n"
def boxTitle : String := "║        TCP Echo Server Started        ║\n"
def boxSeparator : String := "╠══════════════════════════════════════╣\n"
def boxBottom : String := "╚══════════════════════════════════════╝\n\n"

/-- The format `"║ %-20s: %-15s ║\n"` applied to a label and a value. -/
def infoRow (label value : String) : String :=
  "║ " ++ padRight 20 label ++ ": " ++ padRight 15 value ++ " ║\n"

/-- The format `"║ %-20s: %-15d ║\n"` applied to a label and a number. -/
def infoRowNat (label : String) (value : Nat) : String :=
  "║ " ++ padRight 20 label ++ ": " ++ padRightNat 15 value ++ " ║\n"

/-- The format `"║ %-20s  %-15s ║\n"` of a continuation row. -/
def contRow (label value : String) : String :=
  "║ " ++ padRight 20 label ++ "  " ++ padRight 15 value ++ " ║\n"

/-- The rows of lines 80-85 (and 177-182): the first address on a labelled
row, each further address on a continuation row; nothing for no address. -/
def ipRows : List String → String
  | [] => ""
  | ip :: rest => infoRow "Available IPs" ip ++ String.join (rest.map (contRow ""))

/-- `getServerInfo` (lines 48-90).  The connection enters through its local
address: every connection the program handles was accepted from a listener
on network `"tcp"`, so that `conn.LocalAddr()` is a `*net.TCPAddr`.  The
result is the pair of the report and the error, `none` standing for `nil`. -/
def getServerInfo (h : Host) (localAddr : TCPAddr) : String × Option String :=
  let hostname := match h.hostname with
    | Except.ok name => name
    | Except.error _ => "unknown"
  let ips := match h.ifaddrs with
    | Except.ok addrs => collectIPs addrs
    | Except.error _ => []
  let info := "\n" ++ boxTop ++ boxTitle ++ boxSeparator ++
    infoRow "Hostname" hostname ++
    infoRow "Listening on" localAddr.IP ++
    infoRowNat "Port" localAddr.Port ++
    ipRows ips ++
    infoRow "Current Time" h.now.Format ++
    boxBottom
  (info, none)

/-! ## The connection handler (`main.go` lines 92-148) -/

/-- What one accepted connection presents to its handler: the texts of its
two endpoints, its local TCP address, the lines `scanner.Scan()` yields through
`scanner.Text()` in order, the value `scanner.Err()` holds after a given
number of calls of `Scan` (`none` for `nil`, which is also the value at the end
of the stream), and the error of each call of `conn.Write`, counted from 0
(`none` for a write that succeeds). -/
structure Conn where
  remoteAddr : String
  localAddrText : String
  localAddr : TCPAddr
  lines : List String
  scanErr : Nat → Option String
  writeErr : Nat → Option String

/-- The operations a handler performs, in the order it performs them. -/
inductive Event where
  /-- A call of `log.Printf`, with the formatted message. -/
  | log (msg : String)
  /-- A call of `conn.Write` with these bytes, and the error it returned. -/
  | write (bytes : String) (err : Option String)
  /-- A call of `scanner.Scan()`: the line it yielded, `none` when it
  returned false. -/
  | scan (line : Option String)
  /-- The call of `conn.Close()`. -/
  | close
  deriving DecidableEq, Repr

def Event.isWrite : Event → Bool
  | Event.write _ _ => true
  | _ => false

def Event.isScan : Event → Bool
  | Event.scan _ => true
  | _ => false

def Event.isClose : Event → Bool
  | Event.close => true
  | _ => false

/-- The writes of a trace that succeeded or failed, in order. -/
def writesOf : List Event → List (String × Option String)
  | [] => []
  | Event.write b e :: rest => (b, e) :: writesOf rest
  | _ :: rest => writesOf rest

/-- The state of the connection after a trace, started from an open
connection: it is closed once `conn.Close()` has been called. -/
inductive ConnState where
  | Open
  | Closed
  deriving DecidableEq, Repr

def connStateAfter : List Event → ConnState
  | [] => ConnState.Open
  | Event.close :: _ => ConnState.Closed
  | _ :: rest => connStateAfter rest

/-- The text `welcome` of lines 105-108. -/
def welcome : String :=
  "\n=== Welcome to TCP Echo Server! ===\n" ++
  "Type anything and it will be echoed back.\n" ++
  "Type 'quit' to exit.\n" ++
  "================================\n\n"

/-- The bytes line 135-136 build for a message: `"\n" + response` with
`response = fmt.Sprintf("%s%s\n> ", cfg.prefix, message)`. -/
def echoBytes (cfg : config) (message : String) : String :=
  let response := cfg.prefix_ ++ message ++ "\n> "
  "\n" ++ response

/-- Lines 143-147, reached when the loop is left after `scans` calls of
`Scan`: the read error is logged if there is one, then the disconnection. -/
def afterLoop (c : Conn) (scans : Nat) : List Event :=
  (match c.scanErr scans with
    | some e => [Event.log ("Error reading from connection: " ++ e)]
    | none => []) ++
  [Event.log ("Client disconnected: " ++ c.remoteAddr)]

/-- The loop of lines 128-141 followed by lines 143-147.  `n` iterations have
been completed, so that `n` calls of `Scan` and `n + 1` calls of `Write` (the
welcome among them) lie behind; the list holds the lines still to come. -/
def echoLoop (tbl : Char → Char) (c : Conn) (cfg : config) : Nat → List String → List Event
  | n, [] => Event.scan none :: afterLoop c (n + 1)
  | n, message :: rest =>
    Event.scan (some message) ::
    (if ToLower tbl message = "quit" then
      Event.write "Goodbye!\n" (c.writeErr (n + 1)) :: afterLoop c (n + 1)
    else
      match c.writeErr (n + 1) with
      | some e =>
        Event.write (echoBytes cfg message) (some e) ::
        Event.log ("Error writing to connection: " ++ e) :: afterLoop c (n + 1)
      | none =>
        Event.write (echoBytes cfg message) none :: echoLoop tbl c cfg (n + 1) rest)

/-- The deferred function of lines 93-96, run on every return. -/
def deferred (c : Conn) : List Event :=
  [Event.log ("Closing connection from " ++ c.remoteAddr), Event.close]

/-- The bytes of the first write (line 120), given the result of
`getServerInfo` (lines 113-117). -/
def welcomeBytes (r : String × Option String) : String :=
  let info := match r.2 with
    | some _ => "Error getting server info\n"
    | none => r.1
  welcome ++ info ++ "\n> "

/-- `handleConnection` (lines 92-148): the trace of its operations. -/
def handleConnection (tbl : Char → Char) (h : Host) (c : Conn) (cfg : config) : List Event :=
  let clientAddr := c.remoteAddr
  let r := getServerInfo h c.localAddr
  ([Event.log ("New connection from " ++ clientAddr ++ " to " ++ c.localAddrText),
    Event.log ("Sending welcome message to " ++ clientAddr)] ++
   (match r.2 with
    | some e => [Event.log ("Error getting server info: " ++ e)]
    | none => []) ++
   (match c.writeErr 0 with
    | some e =>
      [Event.write (welcomeBytes r) (some e),
       Event.log ("Error writing to " ++ clientAddr ++ ": " ++ e)]
    | none =>
      Event.write (welcomeBytes r) none ::
      Event.log ("Welcome message sent to " ++ clientAddr) ::
      echoLoop tbl c cfg 0 c.lines)) ++
  deferred c

/-! ## The startup banner (`main.go` lines 150-186) -/

/-- Line 152: `address := fmt.Sprintf("%s:%s", cfg.host, cfg.port)`, the
address handed to `net.Listen`. -/
def listenAddress (cfg : config) : String :=
  cfg.host ++ ":" ++ cfg.port

/-- Lines 160-186 of `main`: what the calls of `fmt.Println` and `fmt.Printf`
write to standard output once the listener is bound, one entry per call
outside the loop of line 179 (whose rows share the entry of the first
address).  `hostname, _ := os.Hostname()` and `addrs, _ := net.InterfaceAddrs()`
drop the errors, leaving the empty string and no address.  The result is
`none` when an index into the pieces of the address is out of range, where the
program panics. -/
def startupBanner (h : Host) (cfg : config) : Option (List String) :=
  let address := listenAddress cfg
  let hostname := match h.hostname with
    | Except.ok name => name
    | Except.error _ => ""
  let ips := match h.ifaddrs with
    | Except.ok addrs => collectIPs addrs
    | Except.error _ => []
  match (Split address ':').get? 0, (Split address ':').get? 1 with
  | some hostPart, some portPart =>
    some [
      "\n╔══════════════════════════════════════╗\n",
      "║        TCP Echo Server Started        ║\n",
      "╠══════════════════════════════════════╣\n",
      infoRow "Hostname" hostname,
      infoRow "Listening on" hostPart,
      infoRow "Port" portPart,
      ipRows ips,
      infoRow "Start Time" h.now.Format,
      infoRow "Prefix" cfg.prefix_,
      "╚══════════════════════════════════════╝\n",
      "\n"]
  | _, _ => none

/-! ## Vocabulary of the specification -/

/-- The lengths, in characters, of the non-empty lines of a text. -/
def nonEmptyLineLengths (text : String) : List Nat :=
  ((Split text '\n').filter (fun l => l ≠ "")).map String.length

/-- A text is a fixed-width box when all its non-empty lines have the same
number of characters. -/
def FixedWidth (text : String) : Prop :=
  ∀ m ∈ nonEmptyLineLengths text, ∀ n ∈ nonEmptyLineLengths text, m = n

/-- Two strings are equal case-insensitively when they are equal once both
are put in lower case. -/
def EqualIgnoringCase (tbl : Char → Char) (a b : String) : Prop :=
  ToLower tbl a = ToLower tbl b

instance (tbl : Char → Char) (a b : String) : Decidable (EqualIgnoringCase tbl a b) :=
  inferInstanceAs (Decidable (ToLower tbl a = ToLower tbl b))

/-- The operations of a handler up to the first call of `Scan` when the
welcome is written: the two log lines, the welcome write, its log line. -/
def welcomed (h : Host) (c : Conn) : List Event :=
  [Event.log ("New connection from " ++ c.remoteAddr ++ " to " ++ c.localAddrText),
   Event.log ("Sending welcome message to " ++ c.remoteAddr),
   Event.write (welcome ++ (getServerInfo h c.localAddr).1 ++ "\n> ") none,
   Event.log ("Welcome message sent to " ++ c.remoteAddr)]

/-- The operations of reading each of the given lines and echoing it with
success: for each line, in order, its scan and then one write of
`"\n" + prefix + line + "\n> "`. -/
def echoed (cfg : config) : List String → List Event
  | [] => []
  | l :: rest =>
    Event.scan (some l) :: Event.write ("\n" ++ cfg.prefix_ ++ l ++ "\n> ") none ::
      echoed cfg rest

/-- The value the spec assigns to a setting: the variable's value when it is
set and non-empty, the default otherwise. -/
def settingOrDefault (env : Environ) (key dflt : String) : String :=
  match env key with
  | some v => if v = "" then dflt else v
  | none => dflt

/-- A list of operations holds no write and no scan. -/
def Quiet (l : List Event) : Prop :=
  ∀ x ∈ l, x.isWrite = false ∧ x.isScan = false

/-- After any failed write of the trace, no write and no scan follows. -/
def HaltsOnFailure (l : List Event) : Prop :=
  ∀ (before : List Event) (b e : String) (after : List Event),
    l = before ++ Event.write b (some e) :: after → Quiet after

/-! ## Sample inputs -/

/-- A host named `srv` with no interface address, at 2024-01-02 03:04:05. -/
def sampleHost : Host :=
  { hostname := Except.ok "srv", ifaddrs := Except.ok [], now := ⟨2024, 1, 2, 3, 4, 5⟩ }

/-- The default configuration. -/
def sampleConfig : config :=
  { host := "0.0.0.0", port := "9002", prefix_ := "ECHO: " }

/-- A connection from `10.0.0.9:50000` to `10.0.0.5:9002` that delivers the
given lines and then ends, with the given write errors. -/
def sampleConn (lines : List String) (writeErr : Nat → Option String) : Conn :=
  { remoteAddr := "10.0.0.9:50000", localAddrText := "10.0.0.5:9002",
    localAddr := ⟨"10.0.0.5", 9002⟩, lines := lines,
    scanErr := fun _ => none, writeErr := writeErr }

/-! ## Splitting -/

theorem splitAux_of_not_mem (sep : Char) (xs cur : List Char) (h : sep ∉ xs) :
    splitAux sep xs cur = [String.mk (cur.reverse ++ xs)] := by
  induction xs generalizing cur with
  | nil => simp [splitAux]
  | cons x xs ih =>
    have hx : x ≠ sep := fun hx => h (by simp [hx])
    have hxs : sep ∉ xs := fun hm => h (List.mem_cons_of_mem _ hm)
    simp [splitAux, hx, ih _ hxs]

theorem splitAux_append_sep (sep : Char) (xs ys cur : List Char) (h : sep ∉ xs) :
    splitAux sep (xs ++ sep :: ys) cur =
      String.mk (cur.reverse ++ xs) :: splitAux sep ys [] := by
  induction xs generalizing cur with
  | nil => simp [splitAux]
  | cons x xs ih =>
    have hx : x ≠ sep := fun hx => h (by simp [hx])
    have hxs : sep ∉ xs := fun hm => h (List.mem_cons_of_mem _ hm)
    simp [splitAux, hx, ih _ hxs]

/-- A text that starts with a line and a line break splits into that line
and the pieces of the remainder. -/
theorem Split_line (l rest : String) (h : '\n' ∉ l.data) :
    Split (l ++ "\n" ++ rest) '\n' = l :: Split rest '\n' := by
  have hd : (l ++ "\n" ++ rest).data = l.data ++ '\n' :: rest.data := by
    simp [String.data_append]
  simp [Split, hd, splitAux_append_sep _ _ _ _ h]

/-! ## Configuration -/

theorem default_of_Getenv (env : Environ) (key dflt : String) :
    (if Getenv env key == "" then dflt else Getenv env key) =
      settingOrDefault env key dflt := by
  unfold Getenv settingOrDefault
  cases env key with
  | none => simp
  | some v => by_cases hv : v = "" <;> simp [hv]

/-- C3: `getConfig` is total and gives each of host, port and prefix the value
of its environment variable when that is set and non-empty, and the default
`0.0.0.0`, `9002`, `ECHO: ` otherwise; whatever else the environment holds, the
prefix variable set to `X: ` gives the prefix `X: `. -/
theorem getConfig_spec (env : Environ) :
    getConfig env =
      { host := settingOrDefault env "ECHO_SERVER_HOST" "0.0.0.0",
        port := settingOrDefault env "ECHO_SERVER_PORT" "9002",
        prefix_ := settingOrDefault env "ECHO_SERVER_PREFIX" "ECHO: " } ∧
    (getConfig (fun k => if k = "ECHO_SERVER_PREFIX" then some "X: " else env k)).prefix_
      = "X: " := by
  constructor
  · simp only [getConfig, envHost, envPort, envPrefix, default_of_Getenv]
  · simp [getConfig, envPrefix, Getenv]

/-! ## The server information block -/

/-- C8: whatever the hostname lookup and the interface enumeration answer,
`getServerInfo` returns a nil error together with a report: the box header, the
row of the hostname, the rows of the local address and port, the rows of the
addresses, the row of the time and the bottom border.  A failed hostname lookup
puts the literal `unknown` in the row `Hostname`; a failed interface
enumeration leaves the report without any address row.  With both lookups
failed at `10.0.0.5:9002` the report is the eight lines written out below. -/
theorem getServerInfo_never_fails (hn : Except String String)
    (ifs : Except String (List IfAddr)) (name : String) (addrs : List IfAddr)
    (now : Time) (a : TCPAddr) (e e' : String) :
    (getServerInfo ⟨hn, ifs, now⟩ a).2 = none ∧
    (getServerInfo ⟨Except.ok name, Except.ok addrs, now⟩ a).1 =
      "\n╔══════════════════════════════════════╗\n" ++
      "║        TCP Echo Server Started        ║\n" ++
      "╠══════════════════════════════════════╣\n" ++
      infoRow "Hostname" name ++
      infoRow "Listening on" a.IP ++
      infoRowNat "Port" a.Port ++
      ipRows (collectIPs addrs) ++
      infoRow "Current Time" now.Format ++
      "╚══════════════════════════════════════╝\n\n" ∧
    (getServerInfo ⟨Except.error e, Except.ok addrs, now⟩ a).1 =
      "\n╔══════════════════════════════════════╗\n" ++
      "║        TCP Echo Server Started        ║\n" ++
      "╠══════════════════════════════════════╣\n" ++
      "║ Hostname            : unknown         ║\n" ++
      infoRow "Listening on" a.IP ++
      infoRowNat "Port" a.Port ++
      ipRows (collectIPs addrs) ++
      infoRow "Current Time" now.Format ++
      "╚══════════════════════════════════════╝\n\n" ∧
    (getServerInfo ⟨Except.ok name, Except.error e', now⟩ a).1 =
      "\n╔══════════════════════════════════════╗\n" ++
      "║        TCP Echo Server Started        ║\n" ++
      "╠══════════════════════════════════════╣\n" ++
      infoRow "Hostname" name ++
      infoRow "Listening on" a.IP ++
      infoRowNat "Port" a.Port ++
      infoRow "Current Time" now.Format ++
      "╚══════════════════════════════════════╝\n\n" ∧
    (getServerInfo ⟨Except.error e, Except.error e', now⟩ a).1 =
      "\n╔══════════════════════════════════════╗\n" ++
      "║        TCP Echo Server Started        ║\n" ++
      "╠══════════════════════════════════════╣\n" ++
      "║ Hostname            : unknown         ║\n" ++
      infoRow "Listening on" a.IP ++
      infoRowNat "Port" a.Port ++
      infoRow "Current Time" now.Format ++
      "╚══════════════════════════════════════╝\n\n" ∧
    getServerInfo ⟨Except.error e, ifs, now⟩ a =
      getServerInfo ⟨Except.ok "unknown", ifs, now⟩ a ∧
    getServerInfo ⟨hn, Except.error e, now⟩ a = getServerInfo ⟨hn, Except.ok [], now⟩ a ∧
    getServerInfo ⟨Except.error "no hostname", Except.error "no interfaces",
        ⟨2024, 1, 2, 3, 4, 5⟩⟩ ⟨"10.0.0.5", 9002⟩ =
      ("\n╔══════════════════════════════════════╗\n" ++
       "║        TCP Echo Server Started        ║\n" ++
       "╠══════════════════════════════════════╣\n" ++
       "║ Hostname            : unknown         ║\n" ++
       "║ Listening on        : 10.0.0.5        ║\n" ++
       "║ Port                : 9002            ║\n" ++
       "║ Current Time        : 2024-01-02 03:04:05 ║\n" ++
       "╚══════════════════════════════════════╝\n\n", none) := by
  have hrow : infoRow "Hostname" "unknown" =
      "║ Hostname            : unknown         ║\n" := by decide
  have hnil : ∀ x : String, x ++ "" = x := by
    intro x
    simp
  refine ⟨rfl, ?_, ?_, ?_, ?_, rfl, rfl, ?_⟩
  · simp only [getServerInfo, boxTop, boxTitle, boxSeparator, boxBottom, String.append_assoc]
    rfl
  · simp only [getServerInfo, boxTop, boxTitle, boxSeparator, boxBottom, hrow,
      String.append_assoc]
    rfl
  · simp only [getServerInfo, boxTop, boxTitle, boxSeparator, boxBottom, ipRows, hnil,
      String.append_assoc]
    rfl
  · simp only [getServerInfo, boxTop, boxTitle, boxSeparator, boxBottom, ipRows, hnil,
      hrow, String.append_assoc]
    rfl
  · set_option maxRecDepth 20000 in decide

/-- C7, at a host named `srv` bound to `10.0.0.5:9002`: the borders of the
report have 40 characters, the title and the short rows 41, and the row of
the time 45, so the report is not a fixed-width box. -/
theorem getServerInfo_line_widths :
    nonEmptyLineLengths (getServerInfo sampleHost ⟨"10.0.0.5", 9002⟩).1 =
      [40, 41, 40, 41, 41, 41, 45, 40] ∧
    ¬ FixedWidth (getServerInfo sampleHost ⟨"10.0.0.5", 9002⟩).1 := by
  have hl : nonEmptyLineLengths (getServerInfo sampleHost ⟨"10.0.0.5", 9002⟩).1 =
      [40, 41, 40, 41, 41, 41, 45, 40] := by decide
  refine ⟨hl, ?_⟩
  intro hfix
  have := hfix 40 (by rw [hl]; simp) 41 (by rw [hl]; simp)
  omega

/-- Whatever the host answers and whatever the local address, the report
holds a line of 40 characters (its top border) and a line of 41 characters
(its title): it is never a fixed-width box. -/
theorem getServerInfo_never_fixedWidth (h : Host) (a : TCPAddr) :
    ¬ FixedWidth (getServerInfo h a).1 := by
  obtain ⟨rest, hrest⟩ : ∃ rest, (getServerInfo h a).1 =
      "" ++ "\n" ++ ("╔══════════════════════════════════════╗" ++ "\n" ++
        ("║        TCP Echo Server Started        ║" ++ "\n" ++ rest)) := by
    refine ⟨boxSeparator ++ infoRow "Hostname"
        (match h.hostname with
          | Except.ok name => name
          | Except.error _ => "unknown") ++
        infoRow "Listening on" a.IP ++ infoRowNat "Port" a.Port ++
        ipRows (match h.ifaddrs with
          | Except.ok addrs => collectIPs addrs
          | Except.error _ => []) ++
        infoRow "Current Time" h.now.Format ++ boxBottom, ?_⟩
    simp only [getServerInfo, boxTop, boxTitle, String.append_assoc]
    rfl
  have hsplit : Split (getServerInfo h a).1 '\n' =
      "" :: "╔══════════════════════════════════════╗" ::
        "║        TCP Echo Server Started        ║" :: Split rest '\n' := by
    rw [hrest, Split_line _ _ (by decide), Split_line _ _ (by decide),
      Split_line _ _ (by decide)]
  have h40 : 40 ∈ nonEmptyLineLengths (getServerInfo h a).1 := by
    simp only [nonEmptyLineLengths, hsplit, List.mem_map, List.mem_filter]
    exact ⟨"╔══════════════════════════════════════╗", ⟨by simp, by decide⟩, by decide⟩
  have h41 : 41 ∈ nonEmptyLineLengths (getServerInfo h a).1 := by
    simp only [nonEmptyLineLengths, hsplit, List.mem_map, List.mem_filter]
    exact ⟨"║        TCP Echo Server Started        ║", ⟨by simp, by decide⟩, by decide⟩
  intro hfix
  have := hfix 40 h40 41 h41
  omega

/-! ## The startup banner -/

/-- A host and a port that hold no colon are the two pieces of the address. -/
theorem Split_listenAddress (cfg : config) (hh : ':' ∉ cfg.host.data)
    (hp : ':' ∉ cfg.port.data) :
    Split (listenAddress cfg) ':' = [cfg.host, cfg.port] := by
  have hd : (listenAddress cfg).data = cfg.host.data ++ ':' :: cfg.port.data := by
    simp [listenAddress, String.data_append]
  simp [Split, hd, splitAux_append_sep _ _ _ _ hh, splitAux_of_not_mem _ _ _ hp]

/-- For a host and a port that hold no colon, the banner shows the host on
its row `Listening on` and the port on its row `Port`. -/
theorem startupBanner_of_no_colon (h : Host) (cfg : config) (hh : ':' ∉ cfg.host.data)
    (hp : ':' ∉ cfg.port.data) :
    ∃ rows, startupBanner h cfg = some rows ∧
      rows.get? 4 = some (infoRow "Listening on" cfg.host) ∧
      rows.get? 5 = some (infoRow "Port" cfg.port) := by
  simp [startupBanner, Split_listenAddress cfg hh hp]

/-- C10, at the host `[::1]` and the port `9002`: the socket is bound to
`[::1]:9002`, while the row `Listening on` of the banner shows `[` and the
row `Port` shows nothing, which are not the rows of the host and the port. -/
theorem startupBanner_bracketed_host :
    listenAddress ⟨"[::1]", "9002", "ECHO: "⟩ = "[::1]:9002" ∧
    (startupBanner sampleHost ⟨"[::1]", "9002", "ECHO: "⟩).map (fun rows => rows.get? 4) =
      some (some "║ Listening on        : [               ║\n") ∧
    (startupBanner sampleHost ⟨"[::1]", "9002", "ECHO: "⟩).map (fun rows => rows.get? 5) =
      some (some "║ Port                :                 ║\n") ∧
    infoRow "Listening on" "[::1]" = "║ Listening on        : [::1]           ║\n" ∧
    infoRow "Port" "9002" = "║ Port                : 9002            ║\n" := by
  refine ⟨by decide, by decide, by decide, by decide, by decide⟩

/-! ## The connection handler -/

theorem ToLower_quit (tbl : Char → Char) : ToLower tbl "quit" = "quit" := by
  rfl

/-- The sixteen spellings of `quit` in ASCII letters of either case are equal
to `quit` case-insensitively, whatever the case table above ASCII. -/
theorem ascii_spellings_of_quit (tbl : Char → Char) :
    ∀ L ∈ ["quit", "quiT", "quIt", "quIT",
      "qUit", "qUiT", "qUIt", "qUIT", "Quit", "QuiT", "QuIt", "QuIT",
      "QUit", "QUiT", "QUIt", "QUIT"],
      EqualIgnoringCase tbl L "quit" := by
  intro L hL
  simp only [List.mem_cons, List.mem_singleton, List.not_mem_nil, or_false] at hL
  rcases hL with h | h | h | h | h | h | h | h | h | h | h | h | h | h | h | h <;>
    (subst h; rfl)

theorem ToLower_length (tbl : Char → Char) (s : String) :
    (ToLower tbl s).length = s.length := by
  show ((s.data.map (unicodeToLower tbl)).length = s.data.length)
  exact List.length_map _ _

/-- A line whose length is not 4 is not equal to `quit` case-insensitively:
the empty line and `quit` followed by a blank are echoed. -/
theorem not_quit_of_length (tbl : Char → Char) (L : String) (h : L.length ≠ 4) :
    ¬ EqualIgnoringCase tbl L "quit" := by
  intro heq
  have hlen := congrArg String.length heq
  rw [ToLower_length, ToLower_length] at hlen
  exact h hlen

/-- Above ASCII the case table decides: with a table that sends U+0130, the
capital I with a dot, to `i` (as the table of Go does), the line `QU\u0130T`
is equal to `quit` case-insensitively and is handled as the quit command. -/
theorem dotted_I_spelling_of_quit (tbl : Char → Char)
    (h : tbl (Char.ofNat 0x130) = 'i') :
    EqualIgnoringCase tbl (String.mk ['Q', 'U', Char.ofNat 0x130, 'T']) "quit" := by
  have h1 : unicodeToLower tbl (Char.ofNat 0x130) = 'i' := by
    rw [← h]
    rfl
  have hq : unicodeToLower tbl 'Q' = 'q' := rfl
  have hu : unicodeToLower tbl 'U' = 'u' := rfl
  have ht : unicodeToLower tbl 'T' = 't' := rfl
  simp only [EqualIgnoringCase, ToLower, List.map, h1, hq, hu, ht]
  rfl

theorem echoBytes_eq (cfg : config) (m : String) :
    echoBytes cfg m = "\n" ++ cfg.prefix_ ++ m ++ "\n> " := by
  simp [echoBytes, String.append_assoc]

/-- With the welcome written, the handler is the welcome, then the loop, then
the deferred close. -/
theorem handleConnection_of_welcome_ok (tbl : Char → Char) (h : Host) (c : Conn)
    (cfg : config) (h0 : c.writeErr 0 = none) :
    handleConnection tbl h c cfg =
      welcomed h c ++ (echoLoop tbl c cfg 0 c.lines ++ deferred c) := by
  simp [handleConnection, welcomed, h0, getServerInfo, welcomeBytes]

/-- The loop over lines that are no quit command and whose echoes are
written: each is scanned and echoed, and the loop goes on with the rest. -/
theorem echoLoop_append (tbl : Char → Char) (c : Conn) (cfg : config)
    (pre rest : List String) (n : Nat)
    (hpre : ∀ m ∈ pre, ¬ EqualIgnoringCase tbl m "quit")
    (hw : ∀ k, n < k → k ≤ n + pre.length → c.writeErr k = none) :
    echoLoop tbl c cfg n (pre ++ rest) =
      echoed cfg pre ++ echoLoop tbl c cfg (n + pre.length) rest := by
  induction pre generalizing n with
  | nil => simp [echoed]
  | cons m pre ih =>
    have hm : ToLower tbl m ≠ "quit" := by
      have := hpre m (by simp)
      simpa [EqualIgnoringCase, ToLower_quit] using this
    have hk : c.writeErr (n + 1) = none := hw (n + 1) (by omega) (by simp)
    have hrest := ih (n + 1) (fun x hx => hpre x (by simp [hx]))
      (fun k h1 h2 => hw k (by omega) (by simp; omega))
    have hn : n + (pre.length + 1) = n + 1 + pre.length := by omega
    simp only [List.cons_append, echoLoop, hm, if_false, hk, echoed, echoBytes_eq,
      List.length_cons, hn]
    exact congrArg _ (congrArg _ hrest)

theorem writesOf_append (l₁ l₂ : List Event) :
    writesOf (l₁ ++ l₂) = writesOf l₁ ++ writesOf l₂ := by
  induction l₁ with
  | nil => rfl
  | cons e l ih => cases e <;> simp [writesOf, ih]

theorem writesOf_echoed (cfg : config) (ls : List String) :
    writesOf (echoed cfg ls) =
      ls.map (fun l => ("\n" ++ cfg.prefix_ ++ l ++ "\n> ", none)) := by
  induction ls with
  | nil => rfl
  | cons l ls ih => simp [echoed, writesOf, ih]

theorem writesOf_afterLoop (c : Conn) (n : Nat) : writesOf (afterLoop c n) = [] := by
  unfold afterLoop
  cases c.scanErr n <;> simp [writesOf]

/-- C1: a received line `L` that is not equal to `quit` case-insensitively
(the lines `pre` before it were echoed, the welcome and their echoes written)
is answered, right after its scan, by one write of exactly
`"\n" + prefix + L + "\n> "`, and the operation after that write is no write. -/
theorem handleConnection_echoes_line (tbl : Char → Char) (h : Host) (c : Conn)
    (cfg : config) (pre : List String) (L : String) (post : List String)
    (hlines : c.lines = pre ++ L :: post)
    (hpre : ∀ m ∈ pre, ¬ EqualIgnoringCase tbl m "quit")
    (hw : ∀ k, k ≤ pre.length → c.writeErr k = none)
    (hL : ¬ EqualIgnoringCase tbl L "quit") :
    ∃ tail, handleConnection tbl h c cfg =
        welcomed h c ++ echoed cfg pre ++
          Event.scan (some L) ::
          Event.write ("\n" ++ cfg.prefix_ ++ L ++ "\n> ") (c.writeErr (pre.length + 1)) ::
          tail ∧
      ∀ e, tail.head? = some e → e.isWrite = false := by
  have hq : ToLower tbl L ≠ "quit" := by
    simpa [EqualIgnoringCase, ToLower_quit] using hL
  have hloop := echoLoop_append tbl c cfg pre (L :: post) 0 hpre
    (fun k _ h2 => hw k (by omega))
  rw [handleConnection_of_welcome_ok tbl h c cfg (hw 0 (Nat.zero_le _)), hlines, hloop]
  simp only [Nat.zero_add, echoLoop, hq, if_false, echoBytes_eq]
  cases hk : c.writeErr (pre.length + 1) with
  | some e =>
    refine ⟨Event.log ("Error writing to connection: " ++ e) ::
      (afterLoop c (pre.length + 1) ++ deferred c), by simp, ?_⟩
    intro x hx
    simp at hx
    subst hx
    rfl
  | none =>
    refine ⟨echoLoop tbl c cfg (pre.length + 1) post ++ deferred c, by simp, ?_⟩
    intro x hx
    cases post with
    | nil =>
      simp [echoLoop] at hx
      subst hx
      rfl
    | cons p post =>
      simp [echoLoop] at hx
      subst hx
      rfl

/-- The handler at the lines `hello`, `bye` with every write succeeding:
`hello` is answered by one write of the prefix and the line. -/
theorem handleConnection_echoes_line_witness :
    ∃ tail, handleConnection id sampleHost (sampleConn ["hello", "bye"] (fun _ => none))
        sampleConfig =
        welcomed sampleHost (sampleConn ["hello", "bye"] (fun _ => none)) ++
          echoed sampleConfig [] ++
          Event.scan (some "hello") ::
          Event.write ("\n" ++ "ECHO: " ++ "hello" ++ "\n> ") none ::
          tail ∧
      ∀ e, tail.head? = some e → e.isWrite = false :=
  handleConnection_echoes_line id sampleHost (sampleConn ["hello", "bye"] (fun _ => none))
    sampleConfig [] "hello" ["bye"] rfl (by simp) (fun _ _ => rfl) (by decide)

theorem connStateAfter_append_close (l : List Event) :
    connStateAfter (l ++ [Event.close]) = ConnState.Closed := by
  induction l with
  | nil => rfl
  | cons e l ih => cases e <;> simp [connStateAfter, ih]

theorem quiet_afterLoop (c : Conn) (n : Nat) : Quiet (afterLoop c n) := by
  unfold afterLoop Quiet
  cases c.scanErr n <;> simp [Event.isWrite, Event.isScan]

theorem quiet_deferred (c : Conn) : Quiet (deferred c) := by
  simp [deferred, Quiet, Event.isWrite, Event.isScan]

theorem quiet_append {l₁ l₂ : List Event} (h₁ : Quiet l₁) (h₂ : Quiet l₂) :
    Quiet (l₁ ++ l₂) := by
  intro x hx
  rcases List.mem_append.mp hx with hx | hx
  · exact h₁ x hx
  · exact h₂ x hx

/-- C2: a received line `L` equal to `quit` case-insensitively (the lines
`pre` before it were echoed, the welcome and their echoes written) is
answered by the one write `Goodbye!\n`; what follows is the logging after the
loop and the deferred close: no write, no scan of a later line, and the
connection ends closed. -/
theorem handleConnection_quit (tbl : Char → Char) (h : Host) (c : Conn)
    (cfg : config) (pre : List String) (L : String) (post : List String)
    (hlines : c.lines = pre ++ L :: post)
    (hpre : ∀ m ∈ pre, ¬ EqualIgnoringCase tbl m "quit")
    (hw : ∀ k, k ≤ pre.length → c.writeErr k = none)
    (hL : EqualIgnoringCase tbl L "quit") :
    handleConnection tbl h c cfg =
        welcomed h c ++ echoed cfg pre ++
          Event.scan (some L) ::
          Event.write "Goodbye!\n" (c.writeErr (pre.length + 1)) ::
          (afterLoop c (pre.length + 1) ++ deferred c) ∧
      Quiet (afterLoop c (pre.length + 1) ++ deferred c) ∧
      (handleConnection tbl h c cfg).getLast? = some Event.close ∧
      connStateAfter (handleConnection tbl h c cfg) = ConnState.Closed := by
  have hq : ToLower tbl L = "quit" := by
    simpa [EqualIgnoringCase, ToLower_quit] using hL
  have hloop := echoLoop_append tbl c cfg pre (L :: post) 0 hpre
    (fun k _ h2 => hw k (by omega))
  have htrace : handleConnection tbl h c cfg =
      welcomed h c ++ echoed cfg pre ++
        Event.scan (some L) ::
        Event.write "Goodbye!\n" (c.writeErr (pre.length + 1)) ::
        (afterLoop c (pre.length + 1) ++ deferred c) := by
    rw [handleConnection_of_welcome_ok tbl h c cfg (hw 0 (Nat.zero_le _)), hlines, hloop]
    simp [echoLoop, hq]
  have hsplit : handleConnection tbl h c cfg =
      (welcomed h c ++ echoed cfg pre ++
        Event.scan (some L) ::
        Event.write "Goodbye!\n" (c.writeErr (pre.length + 1)) ::
        (afterLoop c (pre.length + 1) ++
          [Event.log ("Closing connection from " ++ c.remoteAddr)])) ++ [Event.close] := by
    rw [htrace]
    simp [deferred]
  refine ⟨htrace, quiet_append (quiet_afterLoop c _) (quiet_deferred c), ?_, ?_⟩
  · rw [hsplit]
    exact List.getLast?_concat _
  · rw [hsplit]
    exact connStateAfter_append_close _

/-- The handler at the lines `hi`, `QUIT`, `later` with every write
succeeding: `QUIT` is answered by `Goodbye!\n` and nothing follows but the
logging and the close. -/
theorem handleConnection_quit_witness :
    handleConnection id sampleHost (sampleConn ["hi", "QUIT", "later"] (fun _ => none))
        sampleConfig =
        welcomed sampleHost (sampleConn ["hi", "QUIT", "later"] (fun _ => none)) ++
          echoed sampleConfig ["hi"] ++
          Event.scan (some "QUIT") ::
          Event.write "Goodbye!\n" none ::
          (afterLoop (sampleConn ["hi", "QUIT", "later"] (fun _ => none)) 2 ++
            deferred (sampleConn ["hi", "QUIT", "later"] (fun _ => none))) ∧
      Quiet (afterLoop (sampleConn ["hi", "QUIT", "later"] (fun _ => none)) 2 ++
        deferred (sampleConn ["hi", "QUIT", "later"] (fun _ => none))) ∧
      (handleConnection id sampleHost (sampleConn ["hi", "QUIT", "later"] (fun _ => none))
        sampleConfig).getLast? = some Event.close ∧
      connStateAfter (handleConnection id sampleHost
        (sampleConn ["hi", "QUIT", "later"] (fun _ => none)) sampleConfig) =
        ConnState.Closed :=
  handleConnection_quit id sampleHost (sampleConn ["hi", "QUIT", "later"] (fun _ => none))
    sampleConfig ["hi"] "QUIT" ["later"] rfl (by decide) (fun _ _ => rfl) (by decide)

/-- C4: with no quit command among the lines and every write succeeding, the
writes of the handler are the welcome block followed by the info block and
`"\n> "`, then one echo for each line, in the order of the lines. -/
theorem handleConnection_writes_in_order (tbl : Char → Char) (h : Host) (c : Conn)
    (cfg : config)
    (hq : ∀ m ∈ c.lines, ¬ EqualIgnoringCase tbl m "quit")
    (hw : ∀ k, c.writeErr k = none) :
    writesOf (handleConnection tbl h c cfg) =
      (welcome ++ (getServerInfo h c.localAddr).1 ++ "\n> ", none) ::
        c.lines.map (fun l => ("\n" ++ cfg.prefix_ ++ l ++ "\n> ", none)) := by
  have hloop := echoLoop_append tbl c cfg c.lines [] 0 hq (fun k _ _ => hw k)
  rw [List.append_nil] at hloop
  rw [handleConnection_of_welcome_ok tbl h c cfg (hw 0), hloop]
  simp [writesOf_append, writesOf_echoed, writesOf_afterLoop, echoLoop, welcomed, deferred,
    writesOf]

/-- The handler at the lines `a`, `b`, `c` with every write succeeding
writes the welcome and then the echoes of `a`, `b`, `c` in that order. -/
theorem handleConnection_writes_in_order_witness :
    writesOf (handleConnection id sampleHost (sampleConn ["a", "b", "c"] (fun _ => none))
        sampleConfig) =
      (welcome ++ (getServerInfo sampleHost ⟨"10.0.0.5", 9002⟩).1 ++ "\n> ", none) ::
        ["a", "b", "c"].map (fun l => ("\n" ++ "ECHO: " ++ l ++ "\n> ", none)) :=
  handleConnection_writes_in_order id sampleHost (sampleConn ["a", "b", "c"] (fun _ => none))
    sampleConfig (by decide) (fun _ => rfl)

theorem afterLoop_no_close (c : Conn) (n : Nat) :
    ∀ e ∈ afterLoop c n, e.isClose = false := by
  unfold afterLoop
  cases c.scanErr n <;> simp [Event.isClose]

theorem echoLoop_no_close (tbl : Char → Char) (c : Conn) (cfg : config) (ls : List String)
    (n : Nat) : ∀ e ∈ echoLoop tbl c cfg n ls, e.isClose = false := by
  induction ls generalizing n with
  | nil =>
    intro e he
    simp only [echoLoop, List.mem_cons] at he
    rcases he with he | he
    · subst he; rfl
    · exact afterLoop_no_close c _ e he
  | cons m ls ih =>
    intro e he
    simp only [echoLoop, List.mem_cons] at he
    rcases he with he | he
    · subst he; rfl
    · by_cases hq : ToLower tbl m = "quit"
      · simp only [hq, if_true, List.mem_cons] at he
        rcases he with he | he
        · subst he; rfl
        · exact afterLoop_no_close c _ e he
      · simp only [hq, if_false] at he
        cases hk : c.writeErr (n + 1) with
        | some err =>
          simp only [hk, List.mem_cons] at he
          rcases he with he | he | he
          · subst he; rfl
          · subst he; rfl
          · exact afterLoop_no_close c _ e he
        | none =>
          simp only [hk, List.mem_cons] at he
          rcases he with he | he
          · subst he; rfl
          · exact ih _ e he

/-- C5: whatever the lines, the end of reading and the outcomes of the
writes, the trace of the handler is operations on the open connection
followed by the call of `conn.Close()`, its last operation: the connection
ends in state `Closed`. -/
theorem handleConnection_ends_closed (tbl : Char → Char) (h : Host) (c : Conn)
    (cfg : config) :
    ∃ body, handleConnection tbl h c cfg = body ++ [Event.close] ∧
      (∀ e ∈ body, e.isClose = false) ∧
      connStateAfter body = ConnState.Open ∧
      connStateAfter (handleConnection tbl h c cfg) = ConnState.Closed := by
  have key : ∃ body, handleConnection tbl h c cfg = body ++ [Event.close] ∧
      (∀ e ∈ body, e.isClose = false) := by
    cases h0 : c.writeErr 0 with
    | some err =>
      refine ⟨[Event.log ("New connection from " ++ c.remoteAddr ++ " to " ++ c.localAddrText),
        Event.log ("Sending welcome message to " ++ c.remoteAddr),
        Event.write (welcomeBytes (getServerInfo h c.localAddr)) (some err),
        Event.log ("Error writing to " ++ c.remoteAddr ++ ": " ++ err),
        Event.log ("Closing connection from " ++ c.remoteAddr)], ?_, ?_⟩
      · simp [handleConnection, h0, getServerInfo, deferred]
      · simp [Event.isClose]
    | none =>
      refine ⟨welcomed h c ++ (echoLoop tbl c cfg 0 c.lines ++
        [Event.log ("Closing connection from " ++ c.remoteAddr)]), ?_, ?_⟩
      · rw [handleConnection_of_welcome_ok tbl h c cfg h0]
        simp [deferred]
      · intro e he
        simp only [List.mem_append, List.mem_singleton] at he
        rcases he with he | he | he
        · simp only [welcomed, List.mem_cons, List.mem_singleton, List.not_mem_nil,
            or_false] at he
          rcases he with he | he | he | he <;> (subst he; rfl)
        · exact echoLoop_no_close tbl c cfg _ _ e he
        · subst he; rfl
  obtain ⟨body, hbody, hno⟩ := key
  refine ⟨body, hbody, hno, ?_, ?_⟩
  · clear hbody
    induction body with
    | nil => rfl
    | cons x xs ih =>
      have hx := hno x (by simp)
      have hxs := ih (fun e he => hno e (by simp [he]))
      cases x <;> simp_all [connStateAfter, Event.isClose]
  · rw [hbody]
    exact connStateAfter_append_close _

theorem haltsOnFailure_of_quiet {l : List Event} (hl : Quiet l) : HaltsOnFailure l := by
  intro before b e after hsplit
  have hmem : Event.write b (some e) ∈ l := by
    rw [hsplit]
    simp
  have := (hl _ hmem).1
  simp [Event.isWrite] at this

theorem haltsOnFailure_cons {x : Event} {l : List Event}
    (hx : ∀ b e, x ≠ Event.write b (some e)) (hl : HaltsOnFailure l) :
    HaltsOnFailure (x :: l) := by
  intro before b e after hsplit
  cases before with
  | nil =>
    simp only [List.nil_append, List.cons.injEq] at hsplit
    exact absurd hsplit.1 (hx b e)
  | cons y ys =>
    simp only [List.cons_append, List.cons.injEq] at hsplit
    exact hl ys b e after hsplit.2

theorem haltsOnFailure_failed_cons {b e : String} {l : List Event} (hl : Quiet l) :
    HaltsOnFailure (Event.write b (some e) :: l) := by
  intro before b1 e1 after hsplit
  cases before with
  | nil =>
    simp only [List.nil_append, List.cons.injEq] at hsplit
    rw [← hsplit.2]
    exact hl
  | cons y ys =>
    simp only [List.cons_append, List.cons.injEq] at hsplit
    exact haltsOnFailure_of_quiet hl ys b1 e1 after hsplit.2

theorem echoLoop_haltsOnFailure (tbl : Char → Char) (c : Conn) (cfg : config)
    (ls : List String) (n : Nat) :
    HaltsOnFailure (echoLoop tbl c cfg n ls ++ deferred c) := by
  have hq : ∀ k, Quiet (afterLoop c k ++ deferred c) :=
    fun k => quiet_append (quiet_afterLoop c k) (quiet_deferred c)
  induction ls generalizing n with
  | nil =>
    simp only [echoLoop, List.cons_append]
    exact haltsOnFailure_cons (by intro b e; simp) (haltsOnFailure_of_quiet (hq _))
  | cons m ls ih =>
    simp only [echoLoop, List.cons_append]
    refine haltsOnFailure_cons (by intro b e; simp) ?_
    by_cases hm : ToLower tbl m = "quit"
    · simp only [hm, if_true, List.cons_append]
      cases hk : c.writeErr (n + 1) with
      | some err => exact haltsOnFailure_failed_cons (hq _)
      | none =>
        exact haltsOnFailure_cons (by intro b e; simp) (haltsOnFailure_of_quiet (hq _))
    · simp only [hm, if_false]
      cases hk : c.writeErr (n + 1) with
      | some err =>
        simp only [List.cons_append]
        refine haltsOnFailure_failed_cons ?_
        intro x hx
        simp only [List.mem_cons] at hx
        rcases hx with hx | hx
        · subst hx
          exact ⟨rfl, rfl⟩
        · exact hq _ x hx
      | none =>
        simp only [List.cons_append]
        exact haltsOnFailure_cons (by intro b e; simp) (ih _)

/-- C6: wherever the trace of the handler holds a failed write (the welcome,
an echo or the farewell), no operation after it is a write or a scan: the
write is not tried again and no further line is read. -/
theorem handleConnection_stops_on_write_failure (tbl : Char → Char) (h : Host) (c : Conn)
    (cfg : config) (before : List Event) (b e : String) (after : List Event)
    (htrace : handleConnection tbl h c cfg = before ++ Event.write b (some e) :: after) :
    Quiet after := by
  have hhalts : HaltsOnFailure (handleConnection tbl h c cfg) := by
    cases h0 : c.writeErr 0 with
    | some err =>
      have htr : handleConnection tbl h c cfg =
          Event.log ("New connection from " ++ c.remoteAddr ++ " to " ++ c.localAddrText) ::
          Event.log ("Sending welcome message to " ++ c.remoteAddr) ::
          Event.write (welcomeBytes (getServerInfo h c.localAddr)) (some err) ::
          (Event.log ("Error writing to " ++ c.remoteAddr ++ ": " ++ err) :: deferred c) := by
        simp [handleConnection, h0, getServerInfo]
      rw [htr]
      refine haltsOnFailure_cons (by intro b e; simp) (haltsOnFailure_cons (by intro b e; simp)
        (haltsOnFailure_failed_cons ?_))
      intro x hx
      simp only [List.mem_cons] at hx
      rcases hx with hx | hx
      · subst hx
        exact ⟨rfl, rfl⟩
      · exact quiet_deferred c x hx
    | none =>
      rw [handleConnection_of_welcome_ok tbl h c cfg h0]
      simp only [welcomed, List.cons_append, List.nil_append]
      exact haltsOnFailure_cons (by intro b e; simp) (haltsOnFailure_cons (by intro b e; simp)
        (haltsOnFailure_cons (by intro b e; simp) (haltsOnFailure_cons (by intro b e; simp)
          (echoLoop_haltsOnFailure tbl c cfg _ _))))
  exact hhalts before b e after htrace

/-- The handler at the lines `a`, `b` when the echo of `a` fails with
`broken pipe`: after the failed write come the two log lines of the loop and
the deferred close, no write and no scan of `b`. -/
theorem handleConnection_stops_on_write_failure_witness :
    Quiet [Event.log "Error writing to connection: broken pipe",
      Event.log "Client disconnected: 10.0.0.9:50000",
      Event.log "Closing connection from 10.0.0.9:50000",
      Event.close] :=
  handleConnection_stops_on_write_failure id sampleHost
    (sampleConn ["a", "b"] (fun k => if k = 1 then some "broken pipe" else none))
    sampleConfig
    (welcomed sampleHost
      (sampleConn ["a", "b"] (fun k => if k = 1 then some "broken pipe" else none)) ++
      [Event.scan (some "a")])
    "\nECHO: a\n> " "broken pipe"
    [Event.log "Error writing to connection: broken pipe",
      Event.log "Client disconnected: 10.0.0.9:50000",
      Event.log "Closing connection from 10.0.0.9:50000",
      Event.close]
    rfl

end TcpEcho
